import Mathlib

/-!
Verification of the attendance tracker (Attenda): shallow embedding of the
data model (`types.ts`) and of the component logic of the main application
file (statistics engine, attendance store operations, persistence round
trip, display-title selection), together with theorems settling the frozen
claims about them.

Conventions of the embedding:
* JavaScript numbers that hold exact integers are embedded as `Nat` or
  `Int`; the floating-point `percentage` is embedded as the exact rational
  `ℚ` value of the same arithmetic expression.
* A JavaScript `Date` value is embedded as an `Int` (an instant, e.g.
  milliseconds since the epoch).
* Optional (possibly `undefined`) fields are embedded as `Option`.
-/

/-- The attendance status enumeration from `types.ts`. -/
inductive AttendanceStatus where
  | PENDING
  | ATTENDED
  | ABSENT
  | SUSPENDED
  | EXCUSED
deriving DecidableEq, BEq, Repr

/-- The `CalendarEvent` record from `types.ts`.  The source field `end` is a
Lean keyword and is embedded as `endTime`. -/
structure CalendarEvent where
  id : String
  uid : String
  title : String
  start : Int
  endTime : Int
  location : Option String := none
  description : Option String := none
  status : AttendanceStatus
  overrideTitle : Option String := none
  isOverride : Option Bool := none
  recurrenceId : Option String := none
  originalDate : Option Int := none
deriving DecidableEq, BEq, Repr

/-- The `Stats` record from `types.ts`; `percentage` is exact rational. -/
structure Stats where
  total : Nat
  attended : Nat
  absent : Nat
  suspended : Nat
  excused : Nat
  pending : Nat
  percentage : ℚ
  neededFor75 : Int
deriving DecidableEq, Repr

/-- The six mutable counters accumulated by the `forEach` loop of
`calculateStats` (`total` is derived afterwards). -/
structure Counts where
  attended : Nat
  absent : Nat
  suspended : Nat
  excused : Nat
  pending : Nat
deriving DecidableEq, Repr

/-- One iteration of the `forEach` loop body of `calculateStats`:
SUSPENDED and EXCUSED return early, then ATTENDED, ABSENT, and the final
`else` branch (PENDING) each bump their counter. -/
def countsStep (c : Counts) (e : CalendarEvent) : Counts :=
  match e.status with
  | .SUSPENDED => { c with suspended := c.suspended + 1 }
  | .EXCUSED => { c with excused := c.excused + 1 }
  | .ATTENDED => { c with attended := c.attended + 1 }
  | .ABSENT => { c with absent := c.absent + 1 }
  | .PENDING => { c with pending := c.pending + 1 }

/-- The statistics engine `calculateStats` of the application component:
counts statuses, sets `total = attended + absent`, the percentage
`total == 0 ? 0 : (attended / total) * 100`, and
`neededFor75 = neededRaw > 0 ? neededRaw : 0` with
`neededRaw = 3 * total - 4 * attended`. -/
def calculateStats (filteredEvents : List CalendarEvent) : Stats :=
  let c := filteredEvents.foldl countsStep ⟨0, 0, 0, 0, 0⟩
  let total := c.attended + c.absent
  let percentage : ℚ := if total = 0 then 0 else ((c.attended : ℚ) / (total : ℚ)) * 100
  let neededRaw : Int := 3 * (total : Int) - 4 * (c.attended : Int)
  let neededFor75 : Int := if neededRaw > 0 then neededRaw else 0
  { total := total, attended := c.attended, absent := c.absent,
    suspended := c.suspended, excused := c.excused, pending := c.pending,
    percentage := percentage, neededFor75 := neededFor75 }

/-- The merge performed by `handleFileUpload` when new occurrences are
parsed: `setEvents(prev => [...prev, ...parsedEvents])`, a plain append. -/
def mergeImport (prev parsedEvents : List CalendarEvent) : List CalendarEvent :=
  prev ++ parsedEvents

/-- The store update of `handleUpdateEvent`:
`events.map(e => e.id === updated.id ? updated : e)`. -/
def handleUpdateEvent (events : List CalendarEvent) (updated : CalendarEvent) : List CalendarEvent :=
  events.map (fun e => if e.id = updated.id then updated else e)

/-- JavaScript truthiness of the optional boolean `event.isOverride`:
truthy exactly when the field is present and `true`. -/
def truthyBool : Option Bool → Bool
  | some true => true
  | _ => false

/-- JavaScript truthiness of the optional string `event.overrideTitle`:
truthy exactly when the field is present and non-empty (the empty string is
falsy in JavaScript). -/
def truthyString : Option String → Bool
  | some s => !(s = "")
  | none => false

/-- The title shown on a calendar cell:
`event.isOverride && event.overrideTitle ? event.overrideTitle : event.title`. -/
def displayTitle (event : CalendarEvent) : String :=
  if truthyBool event.isOverride && truthyString event.overrideTitle then
    event.overrideTitle.getD event.title
  else
    event.title

-- Helper lemmas about the counting fold.

lemma foldl_countsStep (l : List CalendarEvent) (c : Counts) :
    (l.foldl countsStep c).attended = c.attended + l.countP (fun e => decide (e.status = .ATTENDED)) ∧
    (l.foldl countsStep c).absent = c.absent + l.countP (fun e => decide (e.status = .ABSENT)) ∧
    (l.foldl countsStep c).suspended = c.suspended + l.countP (fun e => decide (e.status = .SUSPENDED)) ∧
    (l.foldl countsStep c).excused = c.excused + l.countP (fun e => decide (e.status = .EXCUSED)) ∧
    (l.foldl countsStep c).pending = c.pending + l.countP (fun e => decide (e.status = .PENDING)) := by
  induction l generalizing c with
  | nil => simp
  | cons e tl ih =>
    obtain ⟨h1, h2, h3, h4, h5⟩ := ih (countsStep c e)
    cases hs : e.status <;>
      simp only [countsStep, hs] at h1 h2 h3 h4 h5 <;>
      simp only [List.foldl_cons, List.countP_cons, countsStep, hs] <;>
      refine ⟨?_, ?_, ?_, ?_, ?_⟩ <;> simp <;> omega

lemma calculateStats_attended (evs : List CalendarEvent) :
    (calculateStats evs).attended = evs.countP (fun e => decide (e.status = .ATTENDED)) := by
  have h := foldl_countsStep evs ⟨0, 0, 0, 0, 0⟩
  simpa [calculateStats] using h.1

lemma calculateStats_absent (evs : List CalendarEvent) :
    (calculateStats evs).absent = evs.countP (fun e => decide (e.status = .ABSENT)) := by
  have h := foldl_countsStep evs ⟨0, 0, 0, 0, 0⟩
  simpa [calculateStats] using h.2.1

lemma calculateStats_suspended (evs : List CalendarEvent) :
    (calculateStats evs).suspended = evs.countP (fun e => decide (e.status = .SUSPENDED)) := by
  have h := foldl_countsStep evs ⟨0, 0, 0, 0, 0⟩
  simpa [calculateStats] using h.2.2.1

lemma calculateStats_excused (evs : List CalendarEvent) :
    (calculateStats evs).excused = evs.countP (fun e => decide (e.status = .EXCUSED)) := by
  have h := foldl_countsStep evs ⟨0, 0, 0, 0, 0⟩
  simpa [calculateStats] using h.2.2.2.1

lemma calculateStats_pending (evs : List CalendarEvent) :
    (calculateStats evs).pending = evs.countP (fun e => decide (e.status = .PENDING)) := by
  have h := foldl_countsStep evs ⟨0, 0, 0, 0, 0⟩
  simpa [calculateStats] using h.2.2.2.2

lemma calculateStats_total (evs : List CalendarEvent) :
    (calculateStats evs).total = (calculateStats evs).attended + (calculateStats evs).absent := rfl

lemma calculateStats_percentage_def (evs : List CalendarEvent) :
    (calculateStats evs).percentage =
      if (calculateStats evs).total = 0 then 0
      else (((calculateStats evs).attended : ℚ) / ((calculateStats evs).total : ℚ)) * 100 := rfl

lemma calculateStats_needed_def (evs : List CalendarEvent) :
    (calculateStats evs).neededFor75 =
      if 3 * ((calculateStats evs).total : Int) - 4 * ((calculateStats evs).attended : Int) > 0
      then 3 * ((calculateStats evs).total : Int) - 4 * ((calculateStats evs).attended : Int)
      else 0 := rfl

lemma status_partition (l : List CalendarEvent) :
    l.countP (fun e => decide (e.status = .ATTENDED)) + l.countP (fun e => decide (e.status = .ABSENT)) +
      l.countP (fun e => decide (e.status = .SUSPENDED)) + l.countP (fun e => decide (e.status = .EXCUSED)) +
      l.countP (fun e => decide (e.status = .PENDING)) = l.length := by
  induction l with
  | nil => simp
  | cons e tl ih =>
    cases hs : e.status <;> simp [List.countP_cons, hs] <;> omega

lemma calculateStats_append_one_attended (evs : List CalendarEvent) (e : CalendarEvent)
    (h : e.status = .ATTENDED) :
    (calculateStats (evs ++ [e])).attended = (calculateStats evs).attended + 1 ∧
    (calculateStats (evs ++ [e])).absent = (calculateStats evs).absent := by
  constructor
  · simp [calculateStats_attended, List.countP_append, h]
  · simp [calculateStats_absent, List.countP_append, h]

lemma calculateStats_append_one_absent (evs : List CalendarEvent) (e : CalendarEvent)
    (h : e.status = .ABSENT) :
    (calculateStats (evs ++ [e])).attended = (calculateStats evs).attended ∧
    (calculateStats (evs ++ [e])).absent = (calculateStats evs).absent + 1 := by
  constructor
  · simp [calculateStats_attended, List.countP_append, h]
  · simp [calculateStats_absent, List.countP_append, h]

/-- C1: `calculateStats` classifies every occurrence into exactly one of the
five counters (SUSPENDED into `suspended`, EXCUSED into `excused`, ATTENDED
into `attended`, ABSENT into `absent`, PENDING into `pending`; these are the
only statuses), the five counters sum to the number of occurrences, the
returned `total` equals `attended + absent`, and `total` is at most the
number of occurrences. -/
theorem calculateStats_classification (evs : List CalendarEvent) :
    (calculateStats evs).suspended = evs.countP (fun e => decide (e.status = .SUSPENDED)) ∧
    (calculateStats evs).excused = evs.countP (fun e => decide (e.status = .EXCUSED)) ∧
    (calculateStats evs).attended = evs.countP (fun e => decide (e.status = .ATTENDED)) ∧
    (calculateStats evs).absent = evs.countP (fun e => decide (e.status = .ABSENT)) ∧
    (calculateStats evs).pending = evs.countP (fun e => decide (e.status = .PENDING)) ∧
    (calculateStats evs).attended + (calculateStats evs).absent +
      (calculateStats evs).suspended + (calculateStats evs).excused +
      (calculateStats evs).pending = evs.length ∧
    (calculateStats evs).total = (calculateStats evs).attended + (calculateStats evs).absent ∧
    (calculateStats evs).total ≤ evs.length := by
  have hsum : (calculateStats evs).attended + (calculateStats evs).absent +
      (calculateStats evs).suspended + (calculateStats evs).excused +
      (calculateStats evs).pending = evs.length := by
    rw [calculateStats_attended, calculateStats_absent, calculateStats_suspended,
      calculateStats_excused, calculateStats_pending]
    exact status_partition evs
  refine ⟨calculateStats_suspended evs, calculateStats_excused evs,
    calculateStats_attended evs, calculateStats_absent evs, calculateStats_pending evs,
    hsum, calculateStats_total evs, ?_⟩
  have ht := calculateStats_total evs
  omega

/-- C3: the percentage returned by `calculateStats` is `0` when `total = 0`
and `(attended / total) * 100` otherwise; moreover whenever `total = 0` both
the percentage and `neededFor75` are `0`. -/
theorem calculateStats_percentage_total_zero (evs : List CalendarEvent) :
    (calculateStats evs).percentage =
      (if (calculateStats evs).total = 0 then 0
       else (((calculateStats evs).attended : ℚ) / ((calculateStats evs).total : ℚ)) * 100) ∧
    ((calculateStats evs).total = 0 →
      (calculateStats evs).percentage = 0 ∧ (calculateStats evs).neededFor75 = 0) := by
  refine ⟨calculateStats_percentage_def evs, fun h0 => ⟨?_, ?_⟩⟩
  · rw [calculateStats_percentage_def, if_pos h0]
  · have ht := calculateStats_total evs
    have ha : (calculateStats evs).attended = 0 := by omega
    have hneg : ¬(3 * ((calculateStats evs).total : Int) -
        4 * ((calculateStats evs).attended : Int) > 0) := by
      rw [h0, ha]; norm_num
    rw [calculateStats_needed_def, if_neg hneg]

/-- A concrete event used by the witnesses of the statistics claims. -/
def mkEv (i : String) (st : AttendanceStatus) : CalendarEvent :=
  { id := i, uid := i, title := "Math", start := 0, endTime := 1, status := st }

/-- Witness for C3 at the concrete input `[SUSPENDED, EXCUSED]` (a set with
`total = 0`). -/
theorem calculateStats_percentage_total_zero_witness :
    (calculateStats [mkEv ("1") .SUSPENDED, mkEv ("2") .EXCUSED]).total = 0 ∧
    (calculateStats [mkEv ("1") .SUSPENDED, mkEv ("2") .EXCUSED]).percentage = 0 ∧
    (calculateStats [mkEv ("1") .SUSPENDED, mkEv ("2") .EXCUSED]).neededFor75 = 0 := by
  have h0 : (calculateStats [mkEv ("1") .SUSPENDED, mkEv ("2") .EXCUSED]).total = 0 := by decide
  have h := (calculateStats_percentage_total_zero
    [mkEv ("1") .SUSPENDED, mkEv ("2") .EXCUSED]).2 h0
  exact ⟨h0, h.1, h.2⟩

/-- C2: `neededFor75` equals `max 0 (3 * total - 4 * attended)`; whenever it
is positive, attending that many further classes reaches the 75% threshold,
and one fewer does not reach it (provided the resulting denominator is
positive), so it is the minimum such non-negative integer. -/
theorem calculateStats_neededFor75_minimal (evs : List CalendarEvent) :
    (calculateStats evs).neededFor75 =
      max 0 (3 * ((calculateStats evs).total : Int) - 4 * ((calculateStats evs).attended : Int)) ∧
    (0 < (calculateStats evs).neededFor75 →
      (0.75 : ℚ) ≤ (((calculateStats evs).attended : ℚ) + ((calculateStats evs).neededFor75 : ℚ)) /
        (((calculateStats evs).total : ℚ) + ((calculateStats evs).neededFor75 : ℚ))) ∧
    (1 ≤ (calculateStats evs).neededFor75 →
      0 < ((calculateStats evs).total : Int) + (calculateStats evs).neededFor75 - 1 →
      (((calculateStats evs).attended : ℚ) + ((calculateStats evs).neededFor75 : ℚ) - 1) /
        (((calculateStats evs).total : ℚ) + ((calculateStats evs).neededFor75 : ℚ) - 1)
        < (0.75 : ℚ)) := by
  have hdef := calculateStats_needed_def evs
  have ht := calculateStats_total evs
  set a := (calculateStats evs).attended with ha
  set b := (calculateStats evs).absent with hb
  set t := (calculateStats evs).total with htt
  set n := (calculateStats evs).neededFor75 with hn
  refine ⟨?_, ?_, ?_⟩
  · rw [hdef]; split_ifs <;> omega
  · intro hpos
    have hc : 3 * (t : Int) - 4 * (a : Int) > 0 := by
      by_contra hc
      rw [hdef, if_neg hc] at hpos
      exact lt_irrefl 0 hpos
    have hne : n = 3 * (t : Int) - 4 * (a : Int) := by rw [hdef, if_pos hc]
    have hb1 : 1 ≤ b := by omega
    have hden : (0 : ℚ) < (t : ℚ) + (n : ℚ) := by
      have hi : (0 : Int) < (t : Int) + n := by omega
      exact_mod_cast hi
    rw [le_div_iff₀ hden]
    have hnq : (n : ℚ) = 3 * (t : ℚ) - 4 * (a : ℚ) := by
      rw [hne]; push_cast; ring
    have htq : (t : ℚ) = (a : ℚ) + (b : ℚ) := by exact_mod_cast ht
    have hbq : (1 : ℚ) ≤ (b : ℚ) := by exact_mod_cast hb1
    rw [hnq, htq]; ring_nf
    nlinarith
  · intro h1 h2
    have hc : 3 * (t : Int) - 4 * (a : Int) > 0 := by
      by_contra hc
      rw [hdef, if_neg hc] at h1
      omega
    have hne : n = 3 * (t : Int) - 4 * (a : Int) := by rw [hdef, if_pos hc]
    have hden : (0 : ℚ) < (t : ℚ) + (n : ℚ) - 1 := by exact_mod_cast h2
    rw [div_lt_iff₀ hden]
    have hnq : (n : ℚ) = 3 * (t : ℚ) - 4 * (a : ℚ) := by
      rw [hne]; push_cast; ring
    have htq : (t : ℚ) = (a : ℚ) + (b : ℚ) := by exact_mod_cast ht
    rw [hnq, htq]; ring_nf
    nlinarith

/-- Witness for C2 at the concrete input `[ATTENDED, ABSENT, ABSENT]`
(3 settled classes, 1 attended, so 5 further attendances are needed). -/
theorem calculateStats_neededFor75_minimal_witness :
    (0 : Int) < (calculateStats [mkEv ("1") .ATTENDED, mkEv ("2") .ABSENT, mkEv ("3") .ABSENT]).neededFor75 ∧
    (1 : Int) ≤ (calculateStats [mkEv ("1") .ATTENDED, mkEv ("2") .ABSENT, mkEv ("3") .ABSENT]).neededFor75 ∧
    (0 : Int) < ((calculateStats [mkEv ("1") .ATTENDED, mkEv ("2") .ABSENT, mkEv ("3") .ABSENT]).total : Int) +
      (calculateStats [mkEv ("1") .ATTENDED, mkEv ("2") .ABSENT, mkEv ("3") .ABSENT]).neededFor75 - 1 ∧
    ((0.75 : ℚ) ≤
      (((calculateStats [mkEv ("1") .ATTENDED, mkEv ("2") .ABSENT, mkEv ("3") .ABSENT]).attended : ℚ) +
        ((calculateStats [mkEv ("1") .ATTENDED, mkEv ("2") .ABSENT, mkEv ("3") .ABSENT]).neededFor75 : ℚ)) /
        (((calculateStats [mkEv ("1") .ATTENDED, mkEv ("2") .ABSENT, mkEv ("3") .ABSENT]).total : ℚ) +
          ((calculateStats [mkEv ("1") .ATTENDED, mkEv ("2") .ABSENT, mkEv ("3") .ABSENT]).neededFor75 : ℚ))) ∧
    ((((calculateStats [mkEv ("1") .ATTENDED, mkEv ("2") .ABSENT, mkEv ("3") .ABSENT]).attended : ℚ) +
        ((calculateStats [mkEv ("1") .ATTENDED, mkEv ("2") .ABSENT, mkEv ("3") .ABSENT]).neededFor75 : ℚ) - 1) /
        (((calculateStats [mkEv ("1") .ATTENDED, mkEv ("2") .ABSENT, mkEv ("3") .ABSENT]).total : ℚ) +
          ((calculateStats [mkEv ("1") .ATTENDED, mkEv ("2") .ABSENT, mkEv ("3") .ABSENT]).neededFor75 : ℚ) - 1)
        < (0.75 : ℚ)) := by
  have hpos : (0 : Int) <
      (calculateStats [mkEv ("1") .ATTENDED, mkEv ("2") .ABSENT, mkEv ("3") .ABSENT]).neededFor75 := by
    decide
  have h1 : (1 : Int) ≤
      (calculateStats [mkEv ("1") .ATTENDED, mkEv ("2") .ABSENT, mkEv ("3") .ABSENT]).neededFor75 := by
    decide
  have h2 : (0 : Int) <
      ((calculateStats [mkEv ("1") .ATTENDED, mkEv ("2") .ABSENT, mkEv ("3") .ABSENT]).total : Int) +
      (calculateStats [mkEv ("1") .ATTENDED, mkEv ("2") .ABSENT, mkEv ("3") .ABSENT]).neededFor75 - 1 := by
    decide
  have h := calculateStats_neededFor75_minimal [mkEv ("1") .ATTENDED, mkEv ("2") .ABSENT, mkEv ("3") .ABSENT]
  exact ⟨hpos, h1, h2, h.2.1 hpos, h.2.2 h1 h2⟩

/-- C5: appending one ATTENDED occurrence never decreases the percentage
computed by `calculateStats`, and appending one ABSENT occurrence never
increases it. -/
theorem calculateStats_percentage_monotone (evs : List CalendarEvent) (e : CalendarEvent) :
    (e.status = .ATTENDED →
      (calculateStats evs).percentage ≤ (calculateStats (evs ++ [e])).percentage) ∧
    (e.status = .ABSENT →
      (calculateStats (evs ++ [e])).percentage ≤ (calculateStats evs).percentage) := by
  constructor
  · intro hst
    obtain ⟨hA, hB⟩ := calculateStats_append_one_attended evs e hst
    rw [calculateStats_percentage_def, calculateStats_percentage_def,
      calculateStats_total, calculateStats_total, hA, hB]
    set a := (calculateStats evs).attended with ha
    set b := (calculateStats evs).absent with hb
    have hc1 : ¬(a + 1 + b = 0) := by omega
    rw [if_neg hc1]
    by_cases h0 : a + b = 0
    · rw [if_pos h0]
      positivity
    · rw [if_neg h0]
      have hd1 : (0 : ℚ) < ((a + b : Nat) : ℚ) := by
        have hp : 0 < a + b := by omega
        exact_mod_cast hp
      have hd2 : (0 : ℚ) < ((a + 1 + b : Nat) : ℚ) := by
        have hp : 0 < a + 1 + b := by omega
        exact_mod_cast hp
      rw [div_mul_eq_mul_div, div_mul_eq_mul_div, div_le_div_iff₀ hd1 hd2]
      push_cast
      nlinarith [Nat.cast_nonneg (α := ℚ) a, Nat.cast_nonneg (α := ℚ) b]
  · intro hst
    obtain ⟨hA, hB⟩ := calculateStats_append_one_absent evs e hst
    rw [calculateStats_percentage_def, calculateStats_percentage_def,
      calculateStats_total, calculateStats_total, hA, hB]
    set a := (calculateStats evs).attended with ha
    set b := (calculateStats evs).absent with hb
    have hc1 : ¬(a + (b + 1) = 0) := by omega
    rw [if_neg hc1]
    by_cases h0 : a + b = 0
    · rw [if_pos h0]
      have ha0 : a = 0 := by omega
      rw [ha0]
      norm_num
    · rw [if_neg h0]
      have hd1 : (0 : ℚ) < ((a + (b + 1) : Nat) : ℚ) := by
        have hp : 0 < a + (b + 1) := by omega
        exact_mod_cast hp
      have hd2 : (0 : ℚ) < ((a + b : Nat) : ℚ) := by
        have hp : 0 < a + b := by omega
        exact_mod_cast hp
      rw [div_mul_eq_mul_div, div_mul_eq_mul_div, div_le_div_iff₀ hd1 hd2]
      push_cast
      nlinarith [Nat.cast_nonneg (α := ℚ) a, Nat.cast_nonneg (α := ℚ) b]

/-- Witness for C5 at the concrete base `[ATTENDED, ABSENT]` with one
appended ATTENDED occurrence and one appended ABSENT occurrence. -/
theorem calculateStats_percentage_monotone_witness :
    (calculateStats [mkEv ("1") .ATTENDED, mkEv ("2") .ABSENT]).percentage ≤
      (calculateStats ([mkEv ("1") .ATTENDED, mkEv ("2") .ABSENT] ++ [mkEv ("3") .ATTENDED])).percentage ∧
    (calculateStats ([mkEv ("1") .ATTENDED, mkEv ("2") .ABSENT] ++ [mkEv ("4") .ABSENT])).percentage ≤
      (calculateStats [mkEv ("1") .ATTENDED, mkEv ("2") .ABSENT]).percentage := by
  constructor
  · exact (calculateStats_percentage_monotone [mkEv ("1") .ATTENDED, mkEv ("2") .ABSENT]
      (mkEv ("3") .ATTENDED)).1 (by rfl)
  · exact (calculateStats_percentage_monotone [mkEv ("1") .ATTENDED, mkEv ("2") .ABSENT]
      (mkEv ("4") .ABSENT)).2 (by rfl)

/-- C10 (amended): `neededFor75 = 0` holds exactly when `total = 0` or
`4 * attended >= 3 * total`; whenever `total > 0` this coincides with the
percentage being at least 75.  (At `total = 0` the two notions part ways:
`neededFor75 = 0` yet the percentage is `0 < 75`.) -/
theorem calculateStats_targetMet (evs : List CalendarEvent) :
    ((calculateStats evs).neededFor75 = 0 ↔
      ((calculateStats evs).total = 0 ∨
        3 * (calculateStats evs).total ≤ 4 * (calculateStats evs).attended)) ∧
    (0 < (calculateStats evs).total →
      ((calculateStats evs).neededFor75 = 0 ↔ (75 : ℚ) ≤ (calculateStats evs).percentage)) := by
  have hdef := calculateStats_needed_def evs
  have ht := calculateStats_total evs
  constructor
  · rw [hdef]
    split_ifs with h
    · constructor
      · intro hz
        omega
      · intro hor
        rcases hor with h0 | hle <;> omega
    · exact ⟨fun _ => Or.inr (by omega), fun _ => rfl⟩
  · intro hpos
    have hdq : (0 : ℚ) < ((calculateStats evs).total : ℚ) := by exact_mod_cast hpos
    rw [calculateStats_percentage_def, if_neg (by omega), hdef]
    constructor
    · intro hz
      have hle : 3 * (calculateStats evs).total ≤ 4 * (calculateStats evs).attended := by
        by_contra hc
        rw [if_pos (by omega)] at hz
        omega
      rw [div_mul_eq_mul_div, le_div_iff₀ hdq]
      have hq : (3 : ℚ) * ((calculateStats evs).total : ℚ) ≤
          4 * ((calculateStats evs).attended : ℚ) := by exact_mod_cast hle
      linarith
    · intro hge
      rw [div_mul_eq_mul_div, le_div_iff₀ hdq] at hge
      have hle : 3 * (calculateStats evs).total ≤ 4 * (calculateStats evs).attended := by
        have hq : (75 : ℚ) * ((calculateStats evs).total : ℚ) ≤
            ((calculateStats evs).attended : ℚ) * 100 := hge
        have : (3 : ℚ) * ((calculateStats evs).total : ℚ) ≤
            4 * ((calculateStats evs).attended : ℚ) := by linarith
        exact_mod_cast this
      rw [if_neg (by omega)]

/-- Counterexample to C10 as stated: on the empty occurrence set the code
reports `neededFor75 = 0` ("Target Met") while the percentage is `0`,
strictly below 75, so target-met and a percentage of at least 75% do not
always coincide. -/
theorem calculateStats_targetMet_cex :
    (calculateStats []).neededFor75 = 0 ∧ (calculateStats []).percentage < 75 := by
  constructor <;> decide

/-- Witness for C10 (amended) at `[ATTENDED, ATTENDED, ATTENDED, ABSENT]`,
a set with `total = 4 > 0`. -/
theorem calculateStats_targetMet_witness :
    0 < (calculateStats [mkEv ("1") .ATTENDED, mkEv ("2") .ATTENDED, mkEv ("3") .ATTENDED,
      mkEv ("4") .ABSENT]).total ∧
    ((calculateStats [mkEv ("1") .ATTENDED, mkEv ("2") .ATTENDED, mkEv ("3") .ATTENDED,
      mkEv ("4") .ABSENT]).neededFor75 = 0 ↔
      (75 : ℚ) ≤ (calculateStats [mkEv ("1") .ATTENDED, mkEv ("2") .ATTENDED, mkEv ("3") .ATTENDED,
        mkEv ("4") .ABSENT]).percentage) := by
  have hpos : 0 < (calculateStats [mkEv ("1") .ATTENDED, mkEv ("2") .ATTENDED, mkEv ("3") .ATTENDED,
      mkEv ("4") .ABSENT]).total := by decide
  exact ⟨hpos, (calculateStats_targetMet [mkEv ("1") .ATTENDED, mkEv ("2") .ATTENDED,
    mkEv ("3") .ATTENDED, mkEv ("4") .ABSENT]).2 hpos⟩

/-- C6: the merge on import is a plain append: the prior occurrences are
kept unchanged in order as the prefix, the parsed occurrences follow in
order, nothing is removed, and re-importing the same schedule doubles the
multiplicity of every occurrence (no deduplication). -/
theorem mergeImport_appends (prev news : List CalendarEvent) :
    mergeImport prev news = prev ++ news ∧
    (mergeImport prev news).take prev.length = prev ∧
    (mergeImport prev news).drop prev.length = news ∧
    (mergeImport prev news).length = prev.length + news.length ∧
    ∀ e : CalendarEvent,
      (mergeImport prev prev).countP (fun x => decide (x = e)) =
        2 * prev.countP (fun x => decide (x = e)) := by
  refine ⟨rfl, ?_, ?_, ?_, ?_⟩
  · simp [mergeImport]
  · simp [mergeImport]
  · simp [mergeImport]
  · intro e
    simp [mergeImport, List.countP_append]
    omega

/-- C7: `handleUpdateEvent` keeps the length, replaces exactly the
positions whose occurrence carries the updated id and keeps every other
position unchanged, and is the identity when no occurrence carries the
updated id. -/
theorem handleUpdateEvent_pointwise (events : List CalendarEvent) (updated : CalendarEvent) :
    (handleUpdateEvent events updated).length = events.length ∧
    (∀ i (h : i < events.length),
      (handleUpdateEvent events updated)[i]? =
        some (if (events.get ⟨i, h⟩).id = updated.id then updated else events.get ⟨i, h⟩)) ∧
    ((∀ e ∈ events, e.id ≠ updated.id) → handleUpdateEvent events updated = events) := by
  refine ⟨by simp [handleUpdateEvent], ?_, ?_⟩
  · intro i h
    simp [handleUpdateEvent, List.getElem?_map, List.getElem?_eq_getElem h]
  · intro hnone
    have hcongr : events.map (fun e => if e.id = updated.id then updated else e) =
        events.map id := by
      refine List.map_congr_left ?_
      intro e he
      simp [if_neg (hnone e he)]
    rw [handleUpdateEvent, hcongr, List.map_id]

/-- Witness for C7: updating with an id absent from the store leaves the
store unchanged, and the sole position is untouched. -/
theorem handleUpdateEvent_pointwise_witness :
    0 < [mkEv ("1") .PENDING].length ∧
    (handleUpdateEvent [mkEv ("1") .PENDING] (mkEv ("2") .ATTENDED))[0]? = some (mkEv ("1") .PENDING) ∧
    (∀ e ∈ [mkEv ("1") .PENDING], e.id ≠ (mkEv ("2") .ATTENDED).id) ∧
    handleUpdateEvent [mkEv ("1") .PENDING] (mkEv ("2") .ATTENDED) = [mkEv ("1") .PENDING] := by
  have h := handleUpdateEvent_pointwise [mkEv ("1") .PENDING] (mkEv ("2") .ATTENDED)
  have hid : ∀ e ∈ [mkEv ("1") .PENDING], e.id ≠ (mkEv ("2") .ATTENDED).id := by
    intro e he
    simp only [List.mem_singleton] at he
    subst he
    decide
  refine ⟨by decide, ?_, hid, h.2.2 hid⟩
  have h2 := h.2.1 0 (by decide)
  simpa [mkEv] using h2

/-- An occurrence flagged as an override but carrying an empty override
title; JavaScript treats the empty string as falsy. -/
def evEmptyOverride : CalendarEvent :=
  { id := "1", uid := "u", title := "Math", start := 0, endTime := 1,
    status := .PENDING, overrideTitle := some (""), isOverride := some true }

/-- Counterexample to C9 as stated: `isOverride` is true and
`overrideTitle` is present (the empty string), yet the displayed title is
the base `title`, not `overrideTitle`, because the empty string is falsy in
the condition `event.isOverride && event.overrideTitle`. -/
theorem displayTitle_cex :
    evEmptyOverride.isOverride = some true ∧
    evEmptyOverride.overrideTitle = some ("") ∧
    displayTitle evEmptyOverride = evEmptyOverride.title ∧
    displayTitle evEmptyOverride ≠ "" := by
  refine ⟨rfl, rfl, by decide, by decide⟩

/-- C9 (amended): the displayed title equals `overrideTitle` whenever
`isOverride` is true and `overrideTitle` is present and non-empty, and
equals `title` otherwise (in particular when `isOverride` is not true, or
`overrideTitle` is absent or empty). -/
theorem displayTitle_override (e : CalendarEvent) :
    (∀ s : String, e.isOverride = some true → e.overrideTitle = some s → s ≠ "" →
      displayTitle e = s) ∧
    ((e.isOverride ≠ some true ∨ e.overrideTitle = none ∨ e.overrideTitle = some ("")) →
      displayTitle e = e.title) := by
  constructor
  · intro s h1 h2 h3
    simp [displayTitle, truthyBool, truthyString, h1, h2, h3]
  · intro hcase
    rcases hcase with h | h | h
    · have hb : truthyBool e.isOverride = false := by
        cases hio : e.isOverride with
        | none => rfl
        | some b =>
          cases b with
          | true => exact absurd hio h
          | false => rfl
      simp [displayTitle, hb]
    · simp [displayTitle, truthyString, h]
    · simp [displayTitle, truthyString, h]

/-- Witness for C9 (amended): a genuine override with a non-empty override
title is displayed under that title, and an occurrence that is not an
override is displayed under its base title. -/
theorem displayTitle_override_witness :
    (mkEv ("1") .PENDING).isOverride ≠ some true ∧
    displayTitle (mkEv ("1") .PENDING) = (mkEv ("1") .PENDING).title ∧
    ({ evEmptyOverride with overrideTitle := some ("Physics") } : CalendarEvent).isOverride
      = some true ∧
    ({ evEmptyOverride with overrideTitle := some ("Physics") } : CalendarEvent).overrideTitle
      = some ("Physics") ∧
    displayTitle { evEmptyOverride with overrideTitle := some ("Physics") } = "Physics" := by
  refine ⟨by decide, ?_, rfl, rfl, ?_⟩
  · exact (displayTitle_override (mkEv ("1") .PENDING)).2 (Or.inl (by decide))
  · exact (displayTitle_override { evEmptyOverride with overrideTitle := some ("Physics") }).1
      ("Physics") rfl rfl (by decide)

/-- The ISO-8601 timestamp string that `JSON.stringify` produces for a
`Date` field, identified by the instant it denotes (the character-level
rendering done by the JavaScript library is injective and is inverted by
`new Date(isoString)`, so the wrapper keeps the instant). -/
structure ISODateString where
  millis : Int
deriving DecidableEq, Repr

/-- One record of the persisted `attenda_events` value: `JSON.stringify`
turns every `Date` field (`start`, `end`, `originalDate`) into its ISO
string; all other fields keep their values. -/
structure StoredEvent where
  id : String
  uid : String
  title : String
  start : ISODateString
  endTime : ISODateString
  location : Option String
  description : Option String
  status : AttendanceStatus
  overrideTitle : Option String
  isOverride : Option Bool
  recurrenceId : Option String
  originalDate : Option ISODateString
deriving DecidableEq, Repr

/-- One record as produced by the load fix-up in the mount effect:
`{...e, start: new Date(e.start), end: new Date(e.end)}`.  The spread keeps
every other field exactly as it came out of `JSON.parse`, so `originalDate`
is still the string-typed persisted form, not a reconstituted date. -/
structure LoadedEvent where
  id : String
  uid : String
  title : String
  start : Int
  endTime : Int
  location : Option String
  description : Option String
  status : AttendanceStatus
  overrideTitle : Option String
  isOverride : Option Bool
  recurrenceId : Option String
  originalDate : Option ISODateString
deriving DecidableEq, Repr

/-- `new Date(isoString)`: parsing an ISO timestamp string recovers the
instant it denotes. -/
def newDate (s : ISODateString) : Int :=
  s.millis

/-- Serialization of one event by `JSON.stringify(events)` in the save
effect: date fields become ISO strings, every other field is kept. -/
def serializeEvent (e : CalendarEvent) : StoredEvent :=
  { id := e.id, uid := e.uid, title := e.title,
    start := ⟨e.start⟩, endTime := ⟨e.endTime⟩,
    location := e.location, description := e.description, status := e.status,
    overrideTitle := e.overrideTitle, isOverride := e.isOverride,
    recurrenceId := e.recurrenceId,
    originalDate := e.originalDate.map ISODateString.mk }

/-- The per-record load fix-up of the mount effect:
`{...e, start: new Date(e.start), end: new Date(e.end)}`. -/
def loadFixEvent (s : StoredEvent) : LoadedEvent :=
  { id := s.id, uid := s.uid, title := s.title,
    start := newDate s.start, endTime := newDate s.endTime,
    location := s.location, description := s.description, status := s.status,
    overrideTitle := s.overrideTitle, isOverride := s.isOverride,
    recurrenceId := s.recurrenceId, originalDate := s.originalDate }

/-- The save effect: `localStorage.setItem("attenda_events", JSON.stringify(events))`. -/
def saveEvents (events : List CalendarEvent) : List StoredEvent :=
  events.map serializeEvent

/-- The load effect applied to the persisted collection:
`parsed.map(e => ({...e, start: new Date(e.start), end: new Date(e.end)}))`. -/
def loadEvents (saved : List StoredEvent) : List LoadedEvent :=
  saved.map loadFixEvent

/-- A recurrence-expanded occurrence carrying an `originalDate`, as the
parser produces (failing input for the persistence round trip). -/
def evRecurring : CalendarEvent :=
  { id := "1", uid := "u", title := "Math", start := 100, endTime := 200,
    status := .PENDING, recurrenceId := some ("r"), originalDate := some 100 }

/-- C4 evaluated on the code: persisting and reloading reconstitutes
`start` and `end` to the structured date type for every occurrence, but on
the failing input `evRecurring` (any occurrence with an `originalDate`) the
reloaded `originalDate` is still the serialized ISO string
`ISODateString.mk 100`, not the structured date `100` - the load fix-up
never touches it, contradicting the claim (and the declared field type
`originalDate?: Date` of `types.ts`). -/
theorem load_save_originalDate_bug :
    (∀ e : CalendarEvent,
      (loadFixEvent (serializeEvent e)).start = e.start ∧
      (loadFixEvent (serializeEvent e)).endTime = e.endTime ∧
      (loadFixEvent (serializeEvent e)).id = e.id ∧
      (loadFixEvent (serializeEvent e)).status = e.status ∧
      (loadFixEvent (serializeEvent e)).originalDate = e.originalDate.map ISODateString.mk) ∧
    loadEvents (saveEvents [evRecurring]) = [loadFixEvent (serializeEvent evRecurring)] ∧
    evRecurring.originalDate = some 100 ∧
    (loadFixEvent (serializeEvent evRecurring)).originalDate = some (ISODateString.mk 100) := by
  exact ⟨fun e => ⟨rfl, rfl, rfl, rfl, rfl⟩, rfl, rfl, rfl⟩

/-- Modelled from the spec: `generateCalendarDays` lives in
`utils/dateUtils`, which is not among the provided sources; only its caller
is.  Days are modelled as integers (a running day index with `d % 7 = 0`
meaning Sunday and `d % 7 = 6` Saturday), and the reference month as the
interval of `monthLen` days starting at day `monthFirst`.  Per the spec the
grid runs from the Sunday on or before the first day of the month to the
Saturday on or after its last day, one entry per day in order. -/
def generateCalendarDays (monthFirst : Int) (monthLen : Nat) : List Int :=
  let monthLast : Int := monthFirst + monthLen - 1
  let gridStart : Int := monthFirst - monthFirst % 7
  let gridEnd : Int := monthLast + (6 - monthLast % 7)
  (List.range (gridEnd - gridStart + 1).toNat).map (fun (i : Nat) => gridStart + (i : Int))

lemma generateCalendarDays_eq (monthFirst : Int) (monthLen : Nat) :
    generateCalendarDays monthFirst monthLen =
      (List.range ((monthFirst + monthLen - 1 + (6 - (monthFirst + monthLen - 1) % 7)) -
        (monthFirst - monthFirst % 7) + 1).toNat).map
        (fun (i : Nat) => monthFirst - monthFirst % 7 + (i : Int)) := rfl

/-- C8: for every reference month (of at least one day) the produced grid
has a length that is a multiple of 7, its first entry is the Sunday on or
before the first day of the month, and its last entry is the Saturday on or
after the last day of the month. -/
theorem generateCalendarDays_grid (monthFirst : Int) (monthLen : Nat) (h : 1 ≤ monthLen) :
    (generateCalendarDays monthFirst monthLen).length % 7 = 0 ∧
    0 < (generateCalendarDays monthFirst monthLen).length ∧
    ∃ s e : Int,
      (generateCalendarDays monthFirst monthLen)[0]? = some s ∧
      (generateCalendarDays monthFirst monthLen)[
        (generateCalendarDays monthFirst monthLen).length - 1]? = some e ∧
      s % 7 = 0 ∧ s ≤ monthFirst ∧ monthFirst - s < 7 ∧
      e % 7 = 6 ∧ monthFirst + monthLen - 1 ≤ e ∧ e - (monthFirst + monthLen - 1) < 7 := by
  have hlen : (generateCalendarDays monthFirst monthLen).length =
      ((monthFirst + monthLen - 1 + (6 - (monthFirst + monthLen - 1) % 7)) -
        (monthFirst - monthFirst % 7) + 1).toNat := by
    rw [generateCalendarDays_eq, List.length_map, List.length_range]
  have h0 : 0 < ((monthFirst + monthLen - 1 + (6 - (monthFirst + monthLen - 1) % 7)) -
      (monthFirst - monthFirst % 7) + 1).toNat := by omega
  have hpos : 0 < (generateCalendarDays monthFirst monthLen).length := by
    rw [hlen]; exact h0
  refine ⟨by rw [hlen]; omega, hpos, ?_⟩
  refine ⟨monthFirst - monthFirst % 7,
    monthFirst + monthLen - 1 + (6 - (monthFirst + monthLen - 1) % 7), ?_, ?_, ?_⟩
  · rw [generateCalendarDays_eq, List.getElem?_map, List.getElem?_range h0]
    simp
  · have hlt : ((monthFirst + monthLen - 1 + (6 - (monthFirst + monthLen - 1) % 7)) -
        (monthFirst - monthFirst % 7) + 1).toNat - 1 <
        ((monthFirst + monthLen - 1 + (6 - (monthFirst + monthLen - 1) % 7)) -
        (monthFirst - monthFirst % 7) + 1).toNat := by omega
    rw [hlen, generateCalendarDays_eq, List.getElem?_map, List.getElem?_range hlt,
      Option.map_some']
    rw [Option.some.injEq]
    omega
  · refine ⟨by omega, by omega, by omega, by omega, by omega, by omega⟩

/-- Witness for C8 at a month of 30 days whose first day falls on a
Wednesday (day index 3). -/
theorem generateCalendarDays_grid_witness :
    (1 : Nat) ≤ 30 ∧
    ((generateCalendarDays 3 30).length % 7 = 0 ∧
      0 < (generateCalendarDays 3 30).length ∧
      ∃ s e : Int,
        (generateCalendarDays 3 30)[0]? = some s ∧
        (generateCalendarDays 3 30)[(generateCalendarDays 3 30).length - 1]? = some e ∧
        s % 7 = 0 ∧ s ≤ 3 ∧ 3 - s < 7 ∧
        e % 7 = 6 ∧ 3 + (30 : Nat) - 1 ≤ e ∧ e - (3 + (30 : Nat) - 1) < 7) :=
  ⟨by decide, generateCalendarDays_grid 3 30 (by decide)⟩
